import Mathlib

/-!
Verification development for the Mafia game engine
(`backend/game/{state,actions,events,phases,voting}.py` and the
Town-of-Salem driver in `backend/cli.py`).

Python dictionaries are modelled as association lists preserving
insertion order (`dict[k] = v` keeps the position of an existing key);
the player dictionary, which is keyed by `player.player_id`, is
modelled as a `List Player` with the same semantics.  Code that can
raise an uncaught exception (`KeyError`, `IndexError`) is modelled in
the `Option` monad; `ValueError`, which `process_voting_action`
catches, is distinguished via `PyErr`.
-/

namespace Mafia

/-- `Role` enum from `state.py`. -/
inductive Role where
  | MAFIA
  | VILLAGER
  | DETECTIVE
  | DOCTOR
  deriving DecidableEq, Repr

/-- `Role.value`. -/
def Role.value : Role → String
  | .MAFIA => "MAFIA"
  | .VILLAGER => "VILLAGER"
  | .DETECTIVE => "DETECTIVE"
  | .DOCTOR => "DOCTOR"

/-- `Team` enum from `state.py`. -/
inductive Team where
  | MAFIA_TEAM
  | TOWN_TEAM
  deriving DecidableEq, Repr

/-- `Team.value`. -/
def Team.value : Team → String
  | .MAFIA_TEAM => "MAFIA_TEAM"
  | .TOWN_TEAM => "TOWN_TEAM"

/-- `Phase` enum from `state.py`.  The Python source declares
`DAY_VOTING = "DAY_JUDGMENT"`, which (by Python `Enum` semantics) makes
`Phase.DAY_VOTING` an *alias of the same member* as
`Phase.DAY_JUDGMENT`; it is therefore a definition below, not an extra
constructor. -/
inductive Phase where
  | NIGHT
  | DAY_DISCUSSION
  | DAY_NOMINATION
  | DAY_DEFENSE
  | DAY_JUDGMENT
  | GAME_END
  deriving DecidableEq, Repr

/-- Legacy alias: `Phase.DAY_VOTING` is the same enum member as
`Phase.DAY_JUDGMENT`. -/
def Phase.DAY_VOTING : Phase := Phase.DAY_JUDGMENT

/-- `Phase.value`. -/
def Phase.value : Phase → String
  | .NIGHT => "NIGHT"
  | .DAY_DISCUSSION => "DAY_DISCUSSION"
  | .DAY_NOMINATION => "DAY_NOMINATION"
  | .DAY_DEFENSE => "DAY_DEFENSE"
  | .DAY_JUDGMENT => "DAY_JUDGMENT"
  | .GAME_END => "GAME_END"

/-- `Player` dataclass from `state.py`. -/
structure Player where
  player_id : String
  name : String
  role : Role
  team : Team
  is_alive : Bool := true
  is_human : Bool := false
  model_name : Option String := none
  model_label : Option String := none
  model_provider : Option String := none
  deriving DecidableEq, Repr

/-- Shape of the dictionary produced by `Player.to_dict`: the
`role`/`team` keys are present only when not hidden, and the model
identity fields are intentionally never included. -/
structure PlayerDict where
  player_id : String
  name : String
  is_alive : Bool
  is_human : Bool
  role : Option String
  team : Option String
  deriving DecidableEq, Repr

/-- `Player.to_dict(hide_role)` from `state.py`: role and team are
included iff `not hide_role or self.is_human`. -/
def Player.to_dict (p : Player) (hide_role : Bool) : PlayerDict :=
  { player_id := p.player_id
    name := p.name
    is_alive := p.is_alive
    is_human := p.is_human
    role := if !hide_role || p.is_human then some p.role.value else none
    team := if !hide_role || p.is_human then some p.team.value else none }

/-! ### Association-list model of Python dicts -/

/-- `d.get(k)` / `d[k]` lookup. -/
def alGet {α : Type} (m : List (String × α)) (k : String) : Option α :=
  (m.find? (fun kv => kv.1 = k)).map (fun kv => kv.2)

/-- `k in d`. -/
def alHas {α : Type} (m : List (String × α)) (k : String) : Bool :=
  m.any (fun kv => kv.1 = k)

/-- `d[k] = v`: replaces in place when the key exists (keeping the
insertion position), appends otherwise. -/
def alSet {α : Type} (m : List (String × α)) (k : String) (v : α) : List (String × α) :=
  if alHas m k then m.map (fun kv => if kv.1 = k then (k, v) else kv)
  else m ++ [(k, v)]

/-- Lookup in the player dict (`game_state.players`, keyed by
`player.player_id`). -/
def dictGet (ps : List Player) (pid : String) : Option Player :=
  ps.find? (fun q => q.player_id = pid)

/-- `self.players[player.player_id] = player`: replace in place if the
id is present, append otherwise. -/
def dictInsert (ps : List Player) (p : Player) : List Player :=
  if ps.any (fun q => q.player_id = p.player_id) then
    ps.map (fun q => if q.player_id = p.player_id then p else q)
  else ps ++ [p]

/-- `player.is_alive = False` for the player with the given id. -/
def setDead (ps : List Player) (pid : String) : List Player :=
  ps.map (fun q => if q.player_id = pid then { q with is_alive := false } else q)

/-- `TrialState` dataclass from `state.py`. -/
structure TrialState where
  defendant_id : String
  defense_phase : String := "opening"
  current_speaker_idx : Nat := 0
  votes : List (String × Bool) := []
  deriving DecidableEq, Repr

/-- `TrialState.is_voting_complete`. -/
def TrialState.is_voting_complete (t : TrialState) (alive_count : Nat) : Bool :=
  t.votes.length + 1 ≥ alive_count

/-- `TrialState.get_result`: `some true` = guilty, `some false` =
innocent, `none` = no votes or tie. -/
def TrialState.get_result (t : TrialState) : Option Bool :=
  if t.votes = [] then none
  else
    let guilty := (t.votes.filter (fun v => v.2 = true)).length
    let innocent := (t.votes.filter (fun v => v.2 = false)).length
    if guilty > innocent then some true
    else if innocent > guilty then some false
    else none

/-- `VotingState` dataclass from `state.py` (legacy two-nominee ballot);
the nominee fields default to `None` in the source. -/
structure VotingState where
  nominee1_id : Option String := none
  nominee2_id : Option String := none
  votes : List (String × String) := []
  deriving DecidableEq, Repr

/-- `VotingState.is_complete`. -/
def VotingState.is_complete (vs : VotingState) (alive_count : Nat) : Bool :=
  vs.votes.length ≥ alive_count

/-- `VotingState.get_result`: nominee with strictly more votes, `none`
on no votes or tie. -/
def VotingState.get_result (vs : VotingState) : Option String :=
  if vs.votes = [] then none
  else
    let votes1 := (vs.votes.filter (fun kv => some kv.2 = vs.nominee1_id)).length
    let votes2 := (vs.votes.filter (fun kv => some kv.2 = vs.nominee2_id)).length
    if votes1 > votes2 then vs.nominee1_id
    else if votes2 > votes1 then vs.nominee2_id
    else none

/-- `EventType` enum from `events.py`. -/
inductive EventType where
  | KILL
  | VOTE
  | NOMINATE
  | ELIMINATE
  | SPEAK
  | NIGHT_ACTION
  | PHASE_CHANGE
  deriving DecidableEq, Repr

/-- The `data` payload of a `GameEvent`, a Python dict of heterogeneous
values; each key used anywhere in the engine gets an optional field. -/
structure EventData where
  message : Option String := none
  action_type : Option String := none
  role : Option String := none
  team : Option String := none
  result : Option String := none
  context : Option String := none
  votes : Option (List (String × Bool)) := none
  nominee1_id : Option String := none
  nominee2_id : Option String := none
  deriving DecidableEq, Repr

/-- `GameEvent` dataclass from `events.py` (the wall-clock timestamp is
not modelled). -/
structure GameEvent where
  type : EventType
  phase : String
  day : Nat
  player_id : Option String := none
  target_id : Option String := none
  data : EventData := {}
  deriving DecidableEq, Repr

/-- `GameState` from `state.py`, with the defaults set in
`GameState.__init__`. -/
structure GameState where
  game_id : String
  players : List Player := []
  current_phase : Phase := Phase.DAY_DISCUSSION
  day : Nat := 1
  current_speaker_idx : Nat := 0
  discussion_round : Nat := 0
  nominations : List (String × List String) := []
  who_nominated : List (String × String) := []
  trial_state : Option TrialState := none
  voting_state : Option VotingState := none
  event_log : List GameEvent := []
  day_summaries : List (Nat × String) := []
  winner : Option Team := none
  is_started : Bool := false
  is_complete : Bool := false
  deriving DecidableEq, Repr

namespace GameState

/-- `EventLog.add_event` invoked as
`game_state.event_log.add_event(...)` (append-only). -/
def add_event (g : GameState) (ty : EventType) (phase : String) (day : Nat)
    (player_id : Option String) (target_id : Option String) (data : EventData) : GameState :=
  { g with event_log := g.event_log ++
      [{ type := ty, phase := phase, day := day, player_id := player_id,
         target_id := target_id, data := data }] }

/-- `GameState.add_player`. -/
def add_player (g : GameState) (p : Player) : GameState :=
  { g with players := dictInsert g.players p }

/-- `GameState.get_alive_players`. -/
def get_alive_players (g : GameState) : List Player :=
  g.players.filter (fun p => p.is_alive)

/-- `GameState.get_alive_player_ids`. -/
def get_alive_player_ids (g : GameState) : List String :=
  g.get_alive_players.map (fun p => p.player_id)

/-- `GameState.get_players_by_role` (alive only). -/
def get_players_by_role (g : GameState) (r : Role) : List Player :=
  g.players.filter (fun p => p.role = r ∧ p.is_alive)

/-- `GameState.get_players_by_team` (alive only). -/
def get_players_by_team (g : GameState) (t : Team) : List Player :=
  g.players.filter (fun p => p.team = t ∧ p.is_alive)

/-- `GameState.get_current_speaker`. -/
def get_current_speaker (g : GameState) : Option Player :=
  let alive := g.get_alive_players
  if h : alive = [] then none
  else some (alive.get ⟨g.current_speaker_idx % alive.length,
    Nat.mod_lt _ (List.length_pos.mpr h)⟩)

/-- `GameState.advance_speaker`. -/
def advance_speaker (g : GameState) : GameState :=
  { g with current_speaker_idx := g.current_speaker_idx + 1 }

/-- `GameState.reset_speaker_order`. -/
def reset_speaker_order (g : GameState) : GameState :=
  { g with current_speaker_idx := 0 }

/-- `GameState.add_nomination`: create the target's entry when missing,
then append the nominator if not already present. -/
def add_nomination (g : GameState) (nominator_id target_id : String) : GameState :=
  let noms := if alHas g.nominations target_id then g.nominations
              else g.nominations ++ [(target_id, [])]
  { g with nominations := noms.map (fun kv =>
      if kv.1 = target_id then
        (kv.1, if nominator_id ∈ kv.2 then kv.2 else kv.2 ++ [nominator_id])
      else kv) }

/-- `GameState.get_successful_nominations`: alive targets with at least
one nominator, in insertion order. -/
def get_successful_nominations (g : GameState) : List String :=
  (g.nominations.filter (fun kv =>
    kv.2.length ≥ 1 ∧ kv.1 ∈ g.get_alive_player_ids)).map (fun kv => kv.1)

/-- `GameState.check_win_conditions`. -/
def check_win_conditions (g : GameState) : Option Team :=
  let mafia_count := (g.get_players_by_role Role.MAFIA).length
  let town_count := (g.get_alive_players.filter (fun p => p.team = Team.TOWN_TEAM)).length
  if mafia_count = 0 then some Team.TOWN_TEAM
  else if mafia_count ≥ town_count then some Team.MAFIA_TEAM
  else none

/-- The `hide_role` flag computed at the top of `GameState.to_dict`:
`if player_id:` is Python truthiness (both `None` and `""` are falsy),
then `hide_role = not player or not player.is_human`. -/
def hide_role_for (g : GameState) (player_id : Option String) : Bool :=
  match player_id with
  | some pid =>
    if pid = "" then false
    else match dictGet g.players pid with
      | none => true
      | some player => !player.is_human
  | none => false

/-- The `players` entry of `GameState.to_dict(player_id)`: every player
serialized with the same `hide_role` flag. -/
def players_projection (g : GameState) (player_id : Option String) : List PlayerDict :=
  g.players.map (fun p => p.to_dict (g.hide_role_for player_id))

end GameState

/-! ### Actions (`actions.py`) -/

/-- `NightActionType` enum. -/
inductive NightActionType where
  | KILL
  | SAVE
  | INVESTIGATE
  deriving DecidableEq, Repr

/-- The closed family of action dataclasses (`SpeakAction`,
`NominateAction`, `VoteAction`, `JudgmentVoteAction`, `PassAction`,
`NightAction`). -/
inductive Action where
  | speak (player_id message : String)
  | nominate (player_id target_id : String)
  | vote (player_id nominee_id : String)
  | judgmentVote (player_id vote reason : String)
  | pass (player_id : String)
  | night (player_id : String) (night_action_type : NightActionType) (target_id : String)
  deriving DecidableEq, Repr

/-- The `player_id` field common to every action. -/
def Action.player_id : Action → String
  | .speak pid _ => pid
  | .nominate pid _ => pid
  | .vote pid _ => pid
  | .judgmentVote pid _ _ => pid
  | .pass pid => pid
  | .night pid _ _ => pid

/-- `SpeakAction.validate`. -/
def validateSpeak (g : GameState) (pid msg : String) : Bool × Option String :=
  if g.current_phase ≠ Phase.DAY_DISCUSSION ∧ g.current_phase ≠ Phase.DAY_DEFENSE then
    (false, some "Can only speak during discussion or defense phase")
  else match dictGet g.players pid with
    | none => (false, some "Player not found")
    | some player =>
      if player.is_alive = false then (false, some "Dead players cannot speak")
      else
        let turn_ok :=
          if g.current_phase = Phase.DAY_DISCUSSION then
            match g.get_current_speaker with
            | none => false
            | some cs => cs.player_id = pid
          else true
        if turn_ok = false then (false, some "Not your turn to speak")
        else if msg = "" ∨ msg.trim = "" then (false, some "Message cannot be empty")
        else (true, none)

/-- `NominateAction.validate`. -/
def validateNominate (g : GameState) (pid tid : String) : Bool × Option String :=
  if g.current_phase ≠ Phase.DAY_DISCUSSION ∧ g.current_phase ≠ Phase.DAY_NOMINATION then
    (false, some "Can only nominate during discussion or nomination phase")
  else match dictGet g.players pid with
    | none => (false, some "Player not found")
    | some player =>
      if player.is_alive = false then (false, some "Dead players cannot nominate")
      else
        let turn_ok :=
          if g.current_phase = Phase.DAY_DISCUSSION then
            match g.get_current_speaker with
            | none => false
            | some cs => cs.player_id = pid
          else true
        if turn_ok = false then (false, some "Not your turn to nominate")
        else match dictGet g.players tid with
          | none => (false, some "Target player not found")
          | some target =>
            if target.is_alive = false then (false, some "Cannot nominate dead players")
            else if pid = tid then (false, some "Cannot nominate yourself")
            else (true, none)

/-- `VoteAction.validate` (legacy ballot; note that `Phase.DAY_VOTING`
is the `DAY_JUDGMENT` member). -/
def validateVote (g : GameState) (pid nid : String) : Bool × Option String :=
  if g.current_phase ≠ Phase.DAY_VOTING then
    (false, some "Can only vote during voting phase")
  else match dictGet g.players pid with
    | none => (false, some "Player not found")
    | some player =>
      if player.is_alive = false then (false, some "Dead players cannot vote")
      else match g.voting_state with
        | none => (false, some "No voting in progress")
        | some vs =>
          if some nid ≠ vs.nominee1_id ∧ some nid ≠ vs.nominee2_id then
            (false, some "Can only vote for one of the two nominees")
          else if alHas vs.votes pid then (false, some "Already voted")
          else (true, none)

/-- `JudgmentVoteAction.validate`. -/
def validateJudgmentVote (g : GameState) (pid vote : String) : Bool × Option String :=
  if g.current_phase ≠ Phase.DAY_JUDGMENT then
    (false, some "Can only vote during judgment phase")
  else match dictGet g.players pid with
    | none => (false, some "Player not found")
    | some player =>
      if player.is_alive = false then (false, some "Dead players cannot vote")
      else match g.trial_state with
        | none => (false, some "No trial in progress")
        | some trial =>
          if pid = trial.defendant_id then (false, some "Defendant cannot vote")
          else if alHas trial.votes pid then (false, some "Already voted")
          else if vote.toUpper ≠ "GUILTY" ∧ vote.toUpper ≠ "INNOCENT" then
            (false, some "Vote must be GUILTY or INNOCENT")
          else (true, none)

/-- `PassAction.validate`. -/
def validatePass (g : GameState) (pid : String) : Bool × Option String :=
  if g.current_phase ≠ Phase.DAY_DISCUSSION ∧ g.current_phase ≠ Phase.DAY_NOMINATION ∧
      g.current_phase ≠ Phase.DAY_JUDGMENT then
    (false, some "Can only pass during discussion, nomination, or judgment phase")
  else match dictGet g.players pid with
    | none => (false, some "Player not found")
    | some player =>
      if player.is_alive = false then (false, some "Dead players cannot pass")
      else
        let turn_ok :=
          if g.current_phase = Phase.DAY_DISCUSSION then
            match g.get_current_speaker with
            | none => false
            | some cs => cs.player_id = pid
          else true
        if turn_ok = false then (false, some "Not your turn to pass")
        else (true, none)

/-- `NightAction.validate`. -/
def validateNight (g : GameState) (pid : String) (ty : NightActionType) (tid : String) :
    Bool × Option String :=
  if g.current_phase ≠ Phase.NIGHT then
    (false, some "Can only perform night actions during night phase")
  else match dictGet g.players pid with
    | none => (false, some "Player not found")
    | some player =>
      if player.is_alive = false then (false, some "Dead players cannot perform actions")
      else match dictGet g.players tid with
        | none => (false, some "Target player not found")
        | some target =>
          if target.is_alive = false then (false, some "Cannot target dead players")
          else if pid = tid ∧ ty ≠ NightActionType.SAVE then
            (false, some "Cannot target yourself")
          else if ty = NightActionType.KILL ∧ player.role.value ≠ "MAFIA" then
            (false, some "Only Mafia can kill")
          else if ty = NightActionType.SAVE ∧ player.role.value ≠ "DOCTOR" then
            (false, some "Only Doctor can save")
          else if ty = NightActionType.INVESTIGATE ∧ player.role.value ≠ "DETECTIVE" then
            (false, some "Only Detective can investigate")
          else (true, none)

/-- `action.validate(game_state)`: dispatch to the per-variant
validator. -/
def Action.validate (a : Action) (g : GameState) : Bool × Option String :=
  match a with
  | .speak pid msg => validateSpeak g pid msg
  | .nominate pid tid => validateNominate g pid tid
  | .vote pid nid => validateVote g pid nid
  | .judgmentVote pid v _ => validateJudgmentVote g pid v
  | .pass pid => validatePass g pid
  | .night pid ty tid => validateNight g pid ty tid

/-! ### Voting (`voting.py`) -/

/-- Python exceptions relevant to the engine: `ValueError` (caught by
`process_voting_action`) versus `KeyError` (uncaught). -/
inductive PyErr where
  | valueError (msg : String)
  | keyError
  deriving DecidableEq, Repr

/-- `check_should_transition_to_voting`. -/
def check_should_transition_to_voting (g : GameState) : Bool :=
  g.get_successful_nominations.length ≥ 2

/-- `initialize_voting` from `voting.py` (raises `ValueError` with
fewer than two successful nominations, modelled as `none` — its only
call site guards against that). -/
def begin_voting (g : GameState) : Option GameState :=
  match g.get_successful_nominations with
  | n1 :: n2 :: _ =>
    let vs : VotingState := { nominee1_id := some n1, nominee2_id := some n2, votes := [] }
    let g1 := { g with voting_state := some vs, current_phase := Phase.DAY_VOTING }
    some (g1.add_event EventType.PHASE_CHANGE g1.current_phase.value g1.day none none
      { nominee1_id := some n1, nominee2_id := some n2 })
  | _ => none

/-- `process_vote` from `voting.py`: every raise happens before any
mutation. -/
def process_vote (g : GameState) (voter_id nominee_id : String) :
    Except PyErr GameState :=
  match g.voting_state with
  | none => Except.error (PyErr.valueError "No voting in progress")
  | some vs =>
    if alHas vs.votes voter_id then
      Except.error (PyErr.valueError "Player has already voted")
    else if some nominee_id ≠ vs.nominee1_id ∧ some nominee_id ≠ vs.nominee2_id then
      Except.error (PyErr.valueError "Invalid nominee")
    else
      let g1 := { g with voting_state := some { vs with votes := alSet vs.votes voter_id nominee_id } }
      Except.ok (g1.add_event EventType.VOTE g1.current_phase.value g1.day
        (some voter_id) (some nominee_id) {})

/-- `complete_voting` from `voting.py`: returns the eliminated id (or
`none` when voting is incomplete or tied); `game_state.players[...]`
can raise `KeyError`. -/
def complete_voting (g : GameState) : Except PyErr (Option String × GameState) :=
  match g.voting_state with
  | none => Except.error (PyErr.valueError "No voting in progress")
  | some vs =>
    let alive_count := g.get_alive_players.length
    if vs.is_complete alive_count = false then Except.ok (none, g)
    else
      let tie_state : GameState :=
        { g with voting_state := none, nominations := [], current_speaker_idx := 0 }
      match vs.get_result with
      | some elim =>
        if elim ≠ "" then
          match dictGet g.players elim with
          | none => Except.error PyErr.keyError
          | some pl =>
            let g1 := { g with players := setDead g.players elim }
            let g2 := g1.add_event EventType.ELIMINATE g1.current_phase.value g1.day
              (some elim) none { role := some pl.role.value, team := some pl.team.value }
            Except.ok (some elim,
              { g2 with voting_state := none, nominations := [], current_speaker_idx := 0 })
        else Except.ok (none, tie_state)
      | none => Except.ok (none, tie_state)

/-! ### Phase engine (`phases.py`) -/

/-- `transition_to_night` from `phases.py`. -/
def transition_to_night (g : GameState) : GameState :=
  let g1 := { g with current_phase := Phase.NIGHT }
  g1.add_event EventType.PHASE_CHANGE g1.current_phase.value g1.day none none {}

/-- `transition_to_day` from `phases.py`: note that it *increments the
day counter*. -/
def transition_to_day (g : GameState) : GameState :=
  let g1 := { g with day := g.day + 1, current_phase := Phase.DAY_DISCUSSION,
                     current_speaker_idx := 0, nominations := [] }
  g1.add_event EventType.PHASE_CHANGE g1.current_phase.value g1.day none none {}

/-- `process_discussion_action`. -/
def process_discussion_action (g : GameState) (a : Action) :
    Option (Bool × Option String × GameState) :=
  match a with
  | .speak pid msg =>
    let g1 := g.add_event EventType.SPEAK g.current_phase.value g.day (some pid) none
      { message := some msg }
    some (true, none, g1.advance_speaker)
  | .nominate pid tid =>
    let g1 := g.add_nomination pid tid
    let g2 := g1.add_event EventType.NOMINATE g1.current_phase.value g1.day
      (some pid) (some tid) {}
    if check_should_transition_to_voting g2 then
      match begin_voting g2 with
      | some g3 => some (true, some "Voting phase initiated", g3)
      | none => none
    else some (true, none, g2.advance_speaker)
  | .pass _ => some (true, none, g.advance_speaker)
  | _ => some (false, some "Invalid action for discussion phase", g)

/-- The tail of `process_voting_action` after an elimination: check
win conditions; on a winner set it, move to `GAME_END` and complete
the game, else `transition_to_night`. -/
def voting_win_check (elim : String) (g2 : GameState) :
    Bool × Option String × GameState :=
  match g2.check_win_conditions with
  | some w =>
    (true, some ("Game over! " ++ w.value ++ " wins!"),
      { g2 with winner := some w, current_phase := Phase.GAME_END, is_complete := true })
  | none =>
    (true, some ("Player " ++ elim ++ " eliminated. Moving to night phase."),
      transition_to_night g2)

/-- `process_voting_action`: only `VoteAction` is handled; a
`ValueError` from `process_vote`/`complete_voting` is caught and turned
into `(False, str(e))` with the state as mutated so far. -/
def process_voting_action (g : GameState) (a : Action) :
    Option (Bool × Option String × GameState) :=
  match a with
  | .vote pid nid =>
    match process_vote g pid nid with
    | Except.error (PyErr.valueError m) => some (false, some m, g)
    | Except.error PyErr.keyError => none
    | Except.ok g1 =>
      match complete_voting g1 with
      | Except.error (PyErr.valueError m) => some (false, some m, g1)
      | Except.error PyErr.keyError => none
      | Except.ok (some elim, g2) => some (voting_win_check elim g2)
      | Except.ok (none, g2) => some (true, none, g2)
  | _ => some (false, some "Invalid action for voting phase", g)

/-- `process_night_action`: logs the night action (the INVESTIGATE
branch reads `players[target_id]`, a potential `KeyError`). -/
def process_night_action (g : GameState) (a : Action) :
    Option (Bool × Option String × GameState) :=
  match a with
  | .night pid ty tid =>
    match ty with
    | NightActionType.KILL =>
      some (true, none, g.add_event EventType.NIGHT_ACTION g.current_phase.value g.day
        (some pid) (some tid) { action_type := some "KILL" })
    | NightActionType.SAVE =>
      some (true, none, g.add_event EventType.NIGHT_ACTION g.current_phase.value g.day
        (some pid) (some tid) { action_type := some "SAVE" })
    | NightActionType.INVESTIGATE =>
      match dictGet g.players tid with
      | none => none
      | some target =>
        some (true, none, g.add_event EventType.NIGHT_ACTION g.current_phase.value g.day
          (some pid) (some tid)
          { action_type := some "INVESTIGATE", result := some target.role.value })
  | _ => some (false, some "Invalid action for night phase", g)

/-- `process_action` from `phases.py`: validate, then dispatch on the
current phase (`Phase.DAY_VOTING` being the `DAY_JUDGMENT` member). -/
def process_action (g : GameState) (a : Action) :
    Option (Bool × Option String × GameState) :=
  let v := a.validate g
  if v.1 = false then some (false, v.2, g)
  else if g.current_phase = Phase.DAY_DISCUSSION then process_discussion_action g a
  else if g.current_phase = Phase.DAY_VOTING then process_voting_action g a
  else if g.current_phase = Phase.NIGHT then process_night_action g a
  else some (false, some "Invalid phase for action", g)

/-- One collected night action (`NightAction`'s payload) as stored in
the `night_actions` dict handed to `process_night_results`. -/
structure NAct where
  night_action_type : NightActionType
  target_id : String
  deriving DecidableEq, Repr

/-- The collection loop of `process_night_results`: a later KILL (or
SAVE) silently overwrites an earlier one. -/
def collectTargets (acts : List (String × NAct)) : Option String × Option String :=
  acts.foldl (fun kt a =>
    match a.2.night_action_type with
    | NightActionType.KILL => (some a.2.target_id, kt.2)
    | NightActionType.SAVE => (kt.1, some a.2.target_id)
    | NightActionType.INVESTIGATE => kt) (none, none)

/-- The tail of `process_night_results`: check win conditions; on a
winner set it, move to `GAME_END` and complete the game, else
`transition_to_day`. -/
def night_win_check (g1 : GameState) : GameState :=
  match g1.check_win_conditions with
  | some w =>
    { g1 with winner := some w, current_phase := Phase.GAME_END, is_complete := true }
  | none => transition_to_day g1

/-- `process_night_results` from `phases.py`: the kill lands unless the
kill target id is falsy or equals the save target; then the
`night_win_check` tail runs.  `players[kill_target_id]` can raise
`KeyError`. -/
def process_night_results (g : GameState) (acts : List (String × NAct)) :
    Option GameState :=
  let kt := (collectTargets acts).1
  let st := (collectTargets acts).2
  match kt with
  | some t =>
    if t ≠ "" ∧ st ≠ some t then
      match dictGet g.players t with
      | none => none
      | some victim =>
        let g1 := { g with players := setDead g.players t }
        some (night_win_check (g1.add_event EventType.KILL g1.current_phase.value g1.day
          none (some t)
          { role := some victim.role.value, team := some victim.team.value }))
    else some (night_win_check g)
  | none => some (night_win_check g)

/-! ### The Town-of-Salem driver (`cli.py`)

`MafiaCLI.run_phase` advances a game one full phase at a time; the
choices that come back from the LLM agents (speeches, nomination
targets, judgment votes, night targets, random fallbacks and the random
tie-break) enter as oracle parameters.  An oracle output that
`random.choice` could not return (a member outside its list) yields
`none`, i.e. no step. -/

/-- `MafiaCLI._transition_to_night`: increments the day and clears the
per-day state (no event is logged). -/
def cli_transition_to_night (g : GameState) : GameState :=
  { g with day := g.day + 1, current_phase := Phase.NIGHT, trial_state := none,
           nominations := [], who_nominated := [], current_speaker_idx := 0 }

/-- One iteration of the `_run_discussion` inner loop: a `SpeakAction`
is logged, anything else just passes; either way the speaker index
advances. -/
def discussion_turn (g : GameState) (pid : String) (speech : Option String) : GameState :=
  let g1 := match speech with
    | some m => g.add_event EventType.SPEAK g.current_phase.value g.day (some pid) none
        { message := some m }
    | none => g
  g1.advance_speaker

/-- `MafiaCLI._run_discussion`: the alive list is captured once, each
of `rounds` rounds lets every captured player speak, then the phase
moves to `DAY_NOMINATION` with speaker order and nominations reset. -/
def run_discussion (g : GameState) (rounds : Nat)
    (speech : Nat → String → Option String) : GameState :=
  let aliveIds := g.get_alive_player_ids
  let g1 := (List.range rounds).foldl (fun s r =>
    aliveIds.foldl (fun s2 pid => discussion_turn s2 pid (speech r pid)) s) g
  { g1 with current_phase := Phase.DAY_NOMINATION, current_speaker_idx := 0,
            nominations := [], who_nominated := [] }

/-- One iteration of the `_run_nominations` loop for player `pid`:
players who already nominated are skipped, an invalid or missing
target from the agent is replaced by `random.choice` over the valid
targets (`IndexError` when there are none), and the nomination is
recorded in `who_nominated`, `nominations` and the event log. -/
def nomination_turn (g : GameState) (aliveIds : List String) (pid : String)
    (chosen : Option String) (fallback : String) : Option GameState :=
  if alHas g.who_nominated pid then some g
  else
    let valid := aliveIds.filter (fun t => t ≠ pid)
    let t? : Option String :=
      match chosen with
      | some t => if t ∈ valid then some t
          else if valid = [] then none
          else if fallback ∈ valid then some fallback else none
      | none => if valid = [] then none
          else if fallback ∈ valid then some fallback else none
    match t? with
    | none => none
    | some t =>
      match dictGet g.players t with
      | none => none
      | some _ =>
        let noms := if alHas g.nominations t then
            g.nominations.map (fun kv => if kv.1 = t then (kv.1, kv.2 ++ [pid]) else kv)
          else g.nominations ++ [(t, [pid])]
        let g1 := { g with who_nominated := alSet g.who_nominated pid t,
                           nominations := noms }
        some (g1.add_event EventType.NOMINATE g1.current_phase.value g1.day
          (some pid) (some t) {})

/-- `MafiaCLI._run_nominations`: every alive player nominates once;
with zero nominations the game moves straight to night, otherwise the
defendant is drawn (`random.choice`) among the targets with the maximum
nomination count and a fresh trial opens in `DAY_DEFENSE`. -/
def run_nominations (g : GameState) (chosen : String → Option String)
    (fallback : String → String) (pickD : String) : Option GameState :=
  let aliveIds := g.get_alive_player_ids
  let collected := aliveIds.foldl (fun s? pid =>
    s?.bind (fun s => nomination_turn s aliveIds pid (chosen pid) (fallback pid)))
    (some g)
  match collected with
  | none => none
  | some s =>
    if s.nominations = [] then some (cli_transition_to_night s)
    else
      let top := (s.nominations.map (fun kv => kv.2.length)).foldl Nat.max 0
      let tied := (s.nominations.filter (fun kv => kv.2.length = top)).map (fun kv => kv.1)
      if pickD ∈ tied then
        some { s with
          trial_state := some { defendant_id := pickD, defense_phase := "opening" },
          current_phase := Phase.DAY_DEFENSE }
      else none

/-- `MafiaCLI._run_defense`: opening statement, one response from every
other alive player, closing statement (each speaker may stay silent),
then the trial's `defense_phase` becomes `"done"` and the phase moves
to `DAY_JUDGMENT`.  Without an active trial nothing changes. -/
def run_defense (g : GameState) (opening closing : Option String)
    (resp : String → Option String) : Option GameState :=
  match g.trial_state with
  | none => some g
  | some trial =>
    match dictGet g.players trial.defendant_id with
    | none => none
    | some _ =>
      let g1 := match opening with
        | some m => g.add_event EventType.SPEAK g.current_phase.value g.day
            (some trial.defendant_id) none
            { message := some m, context := some "opening_defense" }
        | none => g
      let others := g.get_alive_players.filter
        (fun p => p.player_id ≠ trial.defendant_id)
      let g2 := others.foldl (fun s p =>
        match resp p.player_id with
        | some m => s.add_event EventType.SPEAK s.current_phase.value s.day
            (some p.player_id) none
            { message := some m, context := some "town_response" }
        | none => s) g1
      let g3 := match closing with
        | some m => g2.add_event EventType.SPEAK g2.current_phase.value g2.day
            (some trial.defendant_id) none
            { message := some m, context := some "closing_defense" }
        | none => g2
      some { g3 with
        trial_state := some { trial with defense_phase := "done" },
        current_phase := Phase.DAY_JUDGMENT }

/-- The alive non-defendant players still to vote when `_run_judgment`
starts. -/
def judgment_voters (g : GameState) (trial : TrialState) : List Player :=
  g.get_alive_players.filter (fun p =>
    p.player_id ≠ trial.defendant_id ∧ alHas trial.votes p.player_id = false)

/-- The votes cast during one `_run_judgment` pass, in speaking
order. -/
def judgment_new_votes (g : GameState) (trial : TrialState) (vchoice : String → Bool) :
    List (String × Bool) :=
  (judgment_voters g trial).map (fun p => (p.player_id, vchoice p.player_id))

/-- The `guilty_votes` counter of `_run_judgment` (tallied over the
votes cast during this pass only). -/
def guilty_count (g : GameState) (trial : TrialState) (vchoice : String → Bool) : Nat :=
  ((judgment_new_votes g trial vchoice).filter (fun v => v.2 = true)).length

/-- The `innocent_votes` counter of `_run_judgment`. -/
def innocent_count (g : GameState) (trial : TrialState) (vchoice : String → Bool) : Nat :=
  ((judgment_new_votes g trial vchoice).filter (fun v => v.2 = false)).length

/-- The tail of `_run_judgment` after an execution: check win
conditions; on a winner set it and complete the game (the phase is
left untouched), else `_transition_to_night`. -/
def judgment_win_check (g3 : GameState) : GameState :=
  match g3.check_win_conditions with
  | some w => { g3 with winner := some w, is_complete := true }
  | none => cli_transition_to_night g3

/-- `MafiaCLI._run_judgment`: every alive non-defendant who has not yet
voted casts `vchoice`; the local guilty/innocent tallies (over the
newly cast votes) decide the verdict: strict guilty majority executes
the defendant, logs an `ELIMINATE` event with role, team and the vote
map, and checks win conditions (stopping the game on a winner);
otherwise the defendant is acquitted.  In either surviving case
`_transition_to_night` runs.  Without an active trial nothing
changes. -/
def run_judgment (g : GameState) (vchoice : String → Bool) : Option GameState :=
  match g.trial_state with
  | none => some g
  | some trial =>
    match dictGet g.players trial.defendant_id with
    | none => none
    | some defendant =>
      let newVotes := judgment_new_votes g trial vchoice
      let guilty_votes := guilty_count g trial vchoice
      let innocent_votes := innocent_count g trial vchoice
      let trial2 : TrialState := { trial with votes := trial.votes ++ newVotes }
      let g1 := { g with trial_state := some trial2 }
      if guilty_votes > innocent_votes then
        let g2 := { g1 with players := setDead g1.players trial.defendant_id }
        some (judgment_win_check (g2.add_event EventType.ELIMINATE g2.current_phase.value
          g2.day (some trial.defendant_id) none
          { role := some defendant.role.value, team := some defendant.team.value,
            votes := some trial2.votes }))
      else some (cli_transition_to_night g1)

/-- One iteration of the `_run_night` collection loop for player `p`:
a raw `NightAction` is stored immediately; the target (from the action
or any `target_id`-bearing action) is replaced by `random.choice` over
the valid targets when invalid and some exist; a truthy final target
is looked up (`KeyError` possible) and a normalized KILL/SAVE/
INVESTIGATE overwrites the player's slot. -/
def night_collect_turn (g : GameState) (aliveIds : List String)
    (acc : List (String × NAct)) (p : Player) (rawAct : Option NAct)
    (rawTarget : Option String) (fallback : String) :
    Option (List (String × NAct)) :=
  if p.role ≠ Role.MAFIA ∧ p.role ≠ Role.DOCTOR ∧ p.role ≠ Role.DETECTIVE then some acc
  else
    let acc1 := match rawAct with
      | some a => alSet acc p.player_id a
      | none => acc
    let t0 : Option String := match rawAct with
      | some a => some a.target_id
      | none => rawTarget
    let valid := if p.role ≠ Role.DOCTOR then aliveIds.filter (fun t => t ≠ p.player_id)
      else aliveIds
    let t1 : Option String := match t0 with
      | some t => if t ∈ valid ∨ valid = [] then some t
          else if fallback ∈ valid then some fallback else none
      | none => if valid = [] then none
          else if fallback ∈ valid then some fallback else none
    match t0, t1 with
    | some _, none => none
    | none, none => some acc1
    | _, some t =>
      if t = "" then some acc1
      else match dictGet g.players t with
        | none => none
        | some _ =>
          if p.role = Role.MAFIA then
            some (alSet acc1 p.player_id { night_action_type := NightActionType.KILL, target_id := t })
          else if p.role = Role.DOCTOR then
            some (alSet acc1 p.player_id { night_action_type := NightActionType.SAVE, target_id := t })
          else
            some (alSet acc1 p.player_id { night_action_type := NightActionType.INVESTIGATE, target_id := t })

/-- The re-check at dawn in `_run_night`: on a winner set it and
complete the game, else leave the state as is. -/
def dawn_win_check (g2 : GameState) : GameState :=
  match g2.check_win_conditions with
  | some w => { g2 with winner := some w, is_complete := true }
  | none => g2

/-- `MafiaCLI._run_night`: collect one night action per alive special
role, then (when any were collected) run `process_night_results`,
unconditionally dawn into `DAY_DISCUSSION` with the per-day state
cleared, and re-check win conditions. -/
def run_night (g : GameState) (rawAct : String → Option NAct)
    (rawTarget : String → Option String) (fallback : String → String) :
    Option GameState :=
  let aliveIds := g.get_alive_player_ids
  let collected := g.get_alive_players.foldl (fun acc? p =>
    acc?.bind (fun acc =>
      night_collect_turn g aliveIds acc p (rawAct p.player_id)
        (rawTarget p.player_id) (fallback p.player_id))) (some [])
  match collected with
  | none => none
  | some acts =>
    if acts = [] then some g
    else match process_night_results g acts with
      | none => none
      | some g1 =>
        some (dawn_win_check { g1 with
          current_phase := Phase.DAY_DISCUSSION, current_speaker_idx := 0,
          nominations := [], who_nominated := [], trial_state := none })

/-! ### Engine-mediated transitions

`MafiaCLI.run_step` drives a game one phase at a time, refusing to act
once `is_complete` is set (and the spec states that once `GAME_END` is
reached no further actions are accepted); actions applied through the
engine go through `process_action`.  `Step` collects these
engine-mediated transitions, with every agent/random choice universally
quantified as an oracle. -/

inductive Step : GameState → GameState → Prop where
  | act (g : GameState) (a : Action) (r : Bool × Option String × GameState)
      (hc : g.is_complete = false) (h : process_action g a = some r) :
      Step g r.2.2
  | night (g : GameState) (rawAct : String → Option NAct)
      (rawTarget : String → Option String) (fallback : String → String)
      (g' : GameState) (hc : g.is_complete = false)
      (hp : g.current_phase = Phase.NIGHT)
      (h : run_night g rawAct rawTarget fallback = some g') :
      Step g g'
  | discussion (g : GameState) (rounds : Nat) (speech : Nat → String → Option String)
      (hc : g.is_complete = false) (hp : g.current_phase = Phase.DAY_DISCUSSION) :
      Step g (run_discussion g rounds speech)
  | nominations (g : GameState) (chosen : String → Option String)
      (fallback : String → String) (pickD : String) (g' : GameState)
      (hc : g.is_complete = false) (hp : g.current_phase = Phase.DAY_NOMINATION)
      (h : run_nominations g chosen fallback pickD = some g') :
      Step g g'
  | defense (g : GameState) (opening closing : Option String)
      (resp : String → Option String) (g' : GameState)
      (hc : g.is_complete = false) (hp : g.current_phase = Phase.DAY_DEFENSE)
      (h : run_defense g opening closing resp = some g') :
      Step g g'
  | judgment (g : GameState) (vchoice : String → Bool) (g' : GameState)
      (hc : g.is_complete = false) (hp : g.current_phase = Phase.DAY_JUDGMENT)
      (h : run_judgment g vchoice = some g') :
      Step g g'

/-- States reachable from `g0` through engine-mediated transitions. -/
def Reach (g0 g : GameState) : Prop := Relation.ReflTransGen Step g0 g

/-- A started game as `MafiaCLI.create_game` sets it up: at `NIGHT`,
not complete, with at least one Mafia member and strictly fewer alive
Mafia than alive town players. -/
def GoodInit (g : GameState) : Prop :=
  g.is_started = true ∧ g.current_phase = Phase.NIGHT ∧ g.is_complete = false ∧
  1 ≤ (g.get_players_by_role Role.MAFIA).length ∧
  (g.get_players_by_role Role.MAFIA).length <
    (g.get_alive_players.filter (fun p => p.team = Team.TOWN_TEAM)).length

instance (g : GameState) : Decidable (GoodInit g) := by
  unfold GoodInit; infer_instance

/-- The win-condition/completion invariant: the win condition is
detected exactly when the game is complete, and a complete game's
winner is the team `check_win_conditions` names. -/
def WinInv (g : GameState) : Prop :=
  g.check_win_conditions.isSome = g.is_complete ∧
  (g.is_complete = true → g.winner = g.check_win_conditions)

/-- Two states agreeing on the fields `check_win_conditions`,
`is_complete` and `winner` read. -/
def sameCore (g g' : GameState) : Prop :=
  g'.players = g.players ∧ g'.is_complete = g.is_complete ∧ g'.winner = g.winner

/-! ### Claim-side counting functions -/

/-- The number of alive players whose role is MAFIA. -/
def aliveMafiaCount (g : GameState) : Nat :=
  (g.players.filter (fun p => p.is_alive = true ∧ p.role = Role.MAFIA)).length

/-- The number of alive players on the town team. -/
def aliveTownTeamCount (g : GameState) : Nat :=
  (g.players.filter (fun p => p.is_alive = true ∧ p.team = Team.TOWN_TEAM)).length

/-! ### Concrete fixtures used by witnesses and counterexamples -/

def mkVillager (pid nm : String) : Player :=
  { player_id := pid, name := nm, role := Role.VILLAGER, team := Team.TOWN_TEAM }

def mkMafioso (pid nm : String) : Player :=
  { player_id := pid, name := nm, role := Role.MAFIA, team := Team.MAFIA_TEAM }

/-- A started four-player night-phase game: one mafioso, three
villagers. -/
def gNight : GameState :=
  { game_id := "g1"
    players := [mkMafioso "m" "Mallory", mkVillager "a" "Alice",
                mkVillager "b" "Bob", mkVillager "c" "Carol"]
    current_phase := Phase.NIGHT
    is_started := true }

/-- A night-action dict with a single Mafia kill targeting `"a"`. -/
def killOnlyActs : List (String × NAct) :=
  [("m", { night_action_type := NightActionType.KILL, target_id := "a" })]

/-- `gNight` during day judgment, with Alice on trial and no votes
cast yet. -/
def gJudgment : GameState :=
  { gNight with current_phase := Phase.DAY_JUDGMENT,
                trial_state := some { defendant_id := "a" } }

/-- A game whose only mafioso is dead (town already won detection
case), in discussion phase. -/
def gNoMafia : GameState :=
  { game_id := "g2"
    players := [{ mkMafioso "m" "Mallory" with is_alive := false },
                mkVillager "a" "Alice", mkVillager "b" "Bob"]
    current_phase := Phase.DAY_DISCUSSION
    is_started := true }

/-- A game at mafia parity: one mafioso versus one villager alive. -/
def gParity : GameState :=
  { game_id := "g3"
    players := [mkMafioso "m" "Mallory", mkVillager "a" "Alice"]
    current_phase := Phase.NIGHT
    is_started := true }

/-- Fixture for the duplicate-id insertion behaviour of
`add_player`. -/
def c8_old : Player := mkVillager "p0" "Old"

def c8_new : Player := mkMafioso "p0" "New"

def c8_game : GameState := { game_id := "g8", players := [c8_old] }

/-- Fixture for the projection claim: a non-human viewer `"v"` and a
dead non-human mafioso `"d"`. -/
def c9_game : GameState :=
  { game_id := "g9"
    players := [mkVillager "v" "Viewer",
                { mkMafioso "d" "Dead" with is_alive := false }] }

/-! ## Theorems -/

theorem check_win_players_eq {g g' : GameState} (h : g'.players = g.players) :
    g'.check_win_conditions = g.check_win_conditions := by
  unfold GameState.check_win_conditions GameState.get_players_by_role
    GameState.get_alive_players
  rw [h]

theorem mafia_count_eq (g : GameState) :
    (g.get_players_by_role Role.MAFIA).length = aliveMafiaCount g := by
  unfold GameState.get_players_by_role aliveMafiaCount
  congr 1
  apply List.filter_congr
  intro p _
  simp only [decide_eq_decide]
  constructor
  · rintro ⟨h1, h2⟩; exact ⟨h2, h1⟩
  · rintro ⟨h1, h2⟩; exact ⟨h2, h1⟩

theorem town_count_eq (g : GameState) :
    (g.get_alive_players.filter (fun p => p.team = Team.TOWN_TEAM)).length
      = aliveTownTeamCount g := by
  unfold GameState.get_alive_players aliveTownTeamCount
  rw [List.filter_filter]
  congr 1
  apply List.filter_congr
  intro p _
  cases h1 : p.is_alive <;> by_cases h2 : p.team = Team.TOWN_TEAM <;> simp [h1, h2]

/-- C1: `checkWinConditions` returns TOWN_TEAM when zero Mafia are
alive, MAFIA_TEAM when (some Mafia remain and) the alive Mafia count is
at least the alive town-team count, and `none` otherwise. -/
theorem check_win_conditions_cases (g : GameState) :
    (aliveMafiaCount g = 0 → g.check_win_conditions = some Team.TOWN_TEAM) ∧
    (aliveMafiaCount g ≠ 0 → aliveTownTeamCount g ≤ aliveMafiaCount g →
      g.check_win_conditions = some Team.MAFIA_TEAM) ∧
    (aliveMafiaCount g ≠ 0 → aliveMafiaCount g < aliveTownTeamCount g →
      g.check_win_conditions = none) := by
  have hm := mafia_count_eq g
  have ht := town_count_eq g
  simp only [GameState.check_win_conditions, hm, ht]
  refine ⟨fun h0 => ?_, fun h0 hge => ?_, fun h0 hlt => ?_⟩
  · rw [if_pos h0]
  · rw [if_neg h0, if_pos hge]
  · rw [if_neg h0, if_neg (by omega)]

/-- Witness for C1 at three concrete games: no Mafia alive, Mafia
parity, and an ordinary night-1 game. -/
theorem check_win_conditions_cases_witness :
    gNoMafia.check_win_conditions = some Team.TOWN_TEAM ∧
    gParity.check_win_conditions = some Team.MAFIA_TEAM ∧
    gNight.check_win_conditions = none :=
  ⟨(check_win_conditions_cases gNoMafia).1 (by decide),
   (check_win_conditions_cases gParity).2.1 (by decide) (by decide),
   (check_win_conditions_cases gNight).2.2 (by decide) (by decide)⟩

/-- C6: an existing but dead player never validates any action. -/
theorem dead_player_action_never_validates (g : GameState) (a : Action) (p : Player)
    (hfind : dictGet g.players a.player_id = some p) (hdead : p.is_alive = false) :
    (a.validate g).1 = false := by
  cases a with
  | speak pid msg =>
    simp only [Action.player_id] at hfind
    simp only [Action.validate, validateSpeak]
    split
    · rfl
    · rw [hfind]; simp [hdead]
  | nominate pid tid =>
    simp only [Action.player_id] at hfind
    simp only [Action.validate, validateNominate]
    split
    · rfl
    · rw [hfind]; simp [hdead]
  | vote pid nid =>
    simp only [Action.player_id] at hfind
    simp only [Action.validate, validateVote]
    split
    · rfl
    · rw [hfind]; simp [hdead]
  | judgmentVote pid v r =>
    simp only [Action.player_id] at hfind
    simp only [Action.validate, validateJudgmentVote]
    split
    · rfl
    · rw [hfind]; simp [hdead]
  | pass pid =>
    simp only [Action.player_id] at hfind
    simp only [Action.validate, validatePass]
    split
    · rfl
    · rw [hfind]; simp [hdead]
  | night pid ty tid =>
    simp only [Action.player_id] at hfind
    simp only [Action.validate, validateNight]
    split
    · rfl
    · rw [hfind]; simp [hdead]

/-- Witness for C6: the dead mafioso of `gNoMafia` cannot speak. -/
theorem dead_player_action_never_validates_witness :
    dictGet gNoMafia.players (Action.speak "m" "hello").player_id =
      some { mkMafioso "m" "Mallory" with is_alive := false } ∧
    ((Action.speak "m" "hello").validate gNoMafia).1 = false :=
  ⟨by decide,
   dead_player_action_never_validates gNoMafia (Action.speak "m" "hello")
     { mkMafioso "m" "Mallory" with is_alive := false } (by decide) rfl⟩

/-- C7: an action that fails validation is rejected with the
validator's reason and the state is returned untouched. -/
theorem invalid_action_leaves_state_unchanged (g : GameState) (a : Action)
    (e : Option String) (h : a.validate g = (false, e)) :
    process_action g a = some (false, e, g) := by
  simp [process_action, h]

/-- Witness for C7: speaking at night is rejected without any state
change. -/
theorem invalid_action_leaves_state_unchanged_witness :
    (Action.speak "a" "hello").validate gNight =
      (false, some "Can only speak during discussion or defense phase") ∧
    process_action gNight (Action.speak "a" "hello") =
      some (false, some "Can only speak during discussion or defense phase", gNight) :=
  ⟨by decide,
   invalid_action_leaves_state_unchanged gNight (Action.speak "a" "hello")
     (some "Can only speak during discussion or defense phase") (by decide)⟩

theorem validateJudgmentVote_phase (g : GameState) (pid v : String)
    (h : (validateJudgmentVote g pid v).1 = true) :
    g.current_phase = Phase.DAY_JUDGMENT := by
  unfold validateJudgmentVote at h
  split at h
  · simp at h
  · rename_i hcond
    exact not_ne_iff.mp hcond

/-- C10: a judgment vote is never applied by `process_action` — in
`DAY_JUDGMENT` the dispatcher routes to the legacy voting handler
(`Phase.DAY_VOTING` is the same member), which rejects everything but
`VoteAction`; in any other phase validation fails.  The state comes
back unchanged, so the vote is never recorded in the trial. -/
theorem judgment_vote_never_applied (g : GameState) (pid v r : String) :
    ∃ e, process_action g (Action.judgmentVote pid v r) = some (false, e, g) := by
  rcases hval : (Action.judgmentVote pid v r).validate g with ⟨ok, err⟩
  cases ok with
  | false => exact ⟨err, by simp [process_action, hval]⟩
  | true =>
    have hphase : g.current_phase = Phase.DAY_JUDGMENT := by
      have h1 : (validateJudgmentVote g pid v).1 = true := by
        have := congrArg Prod.fst hval
        simpa [Action.validate] using this
      exact validateJudgmentVote_phase g pid v h1
    refine ⟨some "Invalid action for voting phase", ?_⟩
    have hroute : process_action g (Action.judgmentVote pid v r) =
        process_voting_action g (Action.judgmentVote pid v r) := by
      simp [process_action, hval, hphase, Phase.DAY_VOTING]
    rw [hroute]
    rfl

/-- C8 counterexample: adding a player whose id is already present
raises nothing and replaces the existing entry (there is no
`DuplicatePlayerError` anywhere in the code). -/
theorem add_player_duplicate_no_error :
    (c8_game.add_player c8_new).players = [c8_new] ∧
    dictGet (c8_game.add_player c8_new).players "p0" = some c8_new ∧
    c8_new ≠ c8_old := by decide

theorem find?_map_replace_hit (p : Player) :
    ∀ ps : List Player, ps.any (fun q => q.player_id = p.player_id) = true →
      ((ps.map (fun q => if q.player_id = p.player_id then p else q)).find?
        (fun q => q.player_id = p.player_id)) = some p := by
  intro ps
  induction ps with
  | nil => intro h; simp at h
  | cons a t ih =>
    intro h
    by_cases ha : a.player_id = p.player_id
    · rw [List.map_cons, if_pos ha]
      exact List.find?_cons_of_pos _ (by simp)
    · rw [List.map_cons, if_neg ha,
        List.find?_cons_of_neg _ (by simpa using ha)]
      apply ih
      simp only [List.any_cons, Bool.or_eq_true, decide_eq_true_eq] at h
      rcases h with h | h
      · exact absurd h ha
      · simpa using h

theorem find?_map_replace_miss (p : Player) (pid : String) (hne : pid ≠ p.player_id) :
    ∀ ps : List Player,
      ((ps.map (fun q => if q.player_id = p.player_id then p else q)).find?
        (fun q => q.player_id = pid)) = ps.find? (fun q => q.player_id = pid) := by
  intro ps
  induction ps with
  | nil => rfl
  | cons a t ih =>
    by_cases ha : a.player_id = p.player_id
    · have h1 : ¬ p.player_id = pid := fun h => hne h.symm
      have h2 : ¬ a.player_id = pid := by rw [ha]; exact h1
      rw [List.map_cons, if_pos ha,
        List.find?_cons_of_neg _ (by simpa using h1),
        List.find?_cons_of_neg _ (by simpa using h2)]
      exact ih
    · rw [List.map_cons, if_neg ha]
      by_cases hap : a.player_id = pid
      · rw [List.find?_cons_of_pos _ (by simpa using hap),
          List.find?_cons_of_pos _ (by simpa using hap)]
      · rw [List.find?_cons_of_neg _ (by simpa using hap),
          List.find?_cons_of_neg _ (by simpa using hap)]
        exact ih

theorem dictGet_dictInsert (ps : List Player) (p : Player) (pid : String) :
    dictGet (dictInsert ps p) pid =
      if pid = p.player_id then some p else dictGet ps pid := by
  unfold dictGet dictInsert
  by_cases hany : ps.any (fun q => q.player_id = p.player_id) = true
  · rw [if_pos hany]
    by_cases hpid : pid = p.player_id
    · rw [if_pos hpid, hpid]
      exact find?_map_replace_hit p ps hany
    · rw [if_neg hpid]
      exact find?_map_replace_miss p pid hpid ps
  · rw [if_neg hany, List.find?_append]
    by_cases hpid : pid = p.player_id
    · have hps : ps.find? (fun q => q.player_id = pid) = none := by
        apply List.find?_eq_none.mpr
        intro x hx
        simp only [decide_eq_true_eq]
        intro hxe
        apply hany
        simp only [List.any_eq_true, decide_eq_true_eq]
        exact ⟨x, hx, by rw [hxe, hpid]⟩
      rw [if_pos hpid, hps]
      have hp1 : List.find? (fun q => q.player_id = pid) [p] = some p :=
        List.find?_cons_of_pos _ (by simp [hpid])
      rw [Option.none_or, hp1]
    · have hp1 : List.find? (fun q => q.player_id = pid) [p] = none := by
        apply List.find?_eq_none.mpr
        intro x hx
        simp only [List.mem_singleton] at hx
        subst hx
        simp only [decide_eq_true_eq]
        exact fun h => hpid h.symm
      rw [if_neg hpid, hp1, Option.or_none]

/-- C8 amended: `add_player` upserts — the entry for the player's id
becomes the new player (silently replacing any existing one) and every
other id is untouched. -/
theorem add_player_upsert (g : GameState) (p : Player) (pid : String) :
    dictGet (g.add_player p).players pid =
      if pid = p.player_id then some p else dictGet g.players pid :=
  dictGet_dictInsert g.players p pid

/-- C9 counterexample: for a non-human viewer, a dead player's role
and team are hidden in the projection (dead players are *not*
revealed). -/
theorem dead_player_role_hidden_in_projection :
    (dictGet c9_game.players "d").map (fun p => p.is_alive) = some false ∧
    c9_game.players_projection (some "v") =
      [{ player_id := "v", name := "Viewer", is_alive := true, is_human := false,
         role := none, team := none },
       { player_id := "d", name := "Dead", is_alive := false, is_human := false,
         role := none, team := none }] := by decide

/-- C9 amended: the projection shows a player's role and team iff the
player itself is human or the `hide_role` flag is off, and the flag is
on exactly when a non-empty viewer id is supplied that is missing from
the game or belongs to a non-human player; being dead plays no role. -/
theorem projection_role_visibility (g : GameState) (viewer : Option String) (p : Player) :
    (((p.to_dict (g.hide_role_for viewer)).role = some p.role.value ∧
      (p.to_dict (g.hide_role_for viewer)).team = some p.team.value) ↔
        (p.is_human = true ∨ g.hide_role_for viewer = false)) ∧
    (g.hide_role_for viewer = true ↔
      ∃ v, viewer = some v ∧ v ≠ "" ∧
        (dictGet g.players v = none ∨
          ∃ q, dictGet g.players v = some q ∧ q.is_human = false)) := by
  constructor
  · cases hr : g.hide_role_for viewer <;> cases hh : p.is_human <;>
      simp [Player.to_dict, hr, hh]
  · cases viewer with
    | none => simp [GameState.hide_role_for]
    | some v =>
      by_cases hv : v = ""
      · subst hv; simp [GameState.hide_role_for]
      · cases hq : dictGet g.players v with
        | none => simp [GameState.hide_role_for, hq, hv]
        | some q =>
          cases hqh : q.is_human <;> simp [GameState.hide_role_for, hq, hv, hqh]

@[simp] theorem players_add_event (g : GameState) (ty : EventType) (ph : String)
    (d : Nat) (pi ti : Option String) (da : EventData) :
    (g.add_event ty ph d pi ti da).players = g.players := rfl

@[simp] theorem event_log_add_event (g : GameState) (ty : EventType) (ph : String)
    (d : Nat) (pi ti : Option String) (da : EventData) :
    (g.add_event ty ph d pi ti da).event_log =
      g.event_log ++ [{ type := ty, phase := ph, day := d, player_id := pi,
                        target_id := ti, data := da }] := rfl

@[simp] theorem players_transition_to_day (g : GameState) :
    (transition_to_day g).players = g.players := rfl

@[simp] theorem players_transition_to_night (g : GameState) :
    (transition_to_night g).players = g.players := rfl

@[simp] theorem players_cli_transition_to_night (g : GameState) :
    (cli_transition_to_night g).players = g.players := rfl

@[simp] theorem event_log_cli_transition_to_night (g : GameState) :
    (cli_transition_to_night g).event_log = g.event_log := rfl

theorem players_night_win_check (g : GameState) :
    (night_win_check g).players = g.players := by
  unfold night_win_check
  cases g.check_win_conditions <;> rfl

theorem mem_log_night_win_check (g : GameState) (e : GameEvent)
    (h : e ∈ g.event_log) : e ∈ (night_win_check g).event_log := by
  unfold night_win_check
  cases g.check_win_conditions with
  | none =>
    unfold transition_to_day
    simp only [event_log_add_event]
    exact List.mem_append_left _ h
  | some w => exact h

theorem players_judgment_win_check (g : GameState) :
    (judgment_win_check g).players = g.players := by
  unfold judgment_win_check
  cases g.check_win_conditions <;> rfl

theorem mem_log_judgment_win_check (g : GameState) (e : GameEvent)
    (h : e ∈ g.event_log) : e ∈ (judgment_win_check g).event_log := by
  unfold judgment_win_check
  cases g.check_win_conditions with
  | none => exact h
  | some w => exact h

theorem dictGet_setDead_self (ps : List Player) (t : String) :
    dictGet (setDead ps t) t =
      (dictGet ps t).map (fun q => { q with is_alive := false }) := by
  unfold dictGet setDead
  induction ps with
  | nil => rfl
  | cons a l ih =>
    by_cases ha : a.player_id = t
    · rw [List.map_cons, if_pos ha,
        List.find?_cons_of_pos _ (by simpa using ha),
        List.find?_cons_of_pos _ (by simpa using ha)]
      rfl
    · rw [List.map_cons, if_neg ha,
        List.find?_cons_of_neg _ (by simpa using ha),
        List.find?_cons_of_neg _ (by simpa using ha)]
      exact ih

/-- C2: resolving a night holding exactly one KILL and one SAVE (in
either order), the kill target survives iff the save targets the same
player; otherwise the target's `is_alive` becomes false and a KILL
event carrying the victim's role and team is appended. -/
theorem night_kill_save_resolution (g : GameState) (killer saver t1 t2 : String)
    (acts : List (String × NAct)) (victim : Player)
    (hacts : acts = [(killer, { night_action_type := NightActionType.KILL, target_id := t1 }),
                     (saver, { night_action_type := NightActionType.SAVE, target_id := t2 })] ∨
             acts = [(saver, { night_action_type := NightActionType.SAVE, target_id := t2 }),
                     (killer, { night_action_type := NightActionType.KILL, target_id := t1 })])
    (hvictim : dictGet g.players t1 = some victim)
    (ht1 : t1 ≠ "") :
    ∃ g', process_night_results g acts = some g' ∧
      (t2 = t1 → dictGet g'.players t1 = some victim) ∧
      (t2 ≠ t1 →
        dictGet g'.players t1 = some { victim with is_alive := false } ∧
        ∃ e ∈ g'.event_log, e.type = EventType.KILL ∧ e.target_id = some t1 ∧
          e.data.role = some victim.role.value ∧ e.data.team = some victim.team.value) := by
  have hct : collectTargets acts = (some t1, some t2) := by
    rcases hacts with h | h <;> subst h <;> rfl
  by_cases h12 : t2 = t1
  · have hcond : ¬ (t1 ≠ "" ∧ (some t2 : Option String) ≠ some t1) := by
      intro hc
      exact hc.2 (by rw [h12])
    have heq : process_night_results g acts = some (night_win_check g) := by
      simp only [process_night_results, hct]
      rw [if_neg hcond]
    refine ⟨_, heq, fun _ => ?_, fun hne => absurd h12 hne⟩
    rw [players_night_win_check]
    exact hvictim
  · have hcond : t1 ≠ "" ∧ (some t2 : Option String) ≠ some t1 := by
      refine ⟨ht1, fun hc => h12 (by injection hc)⟩
    have heq : process_night_results g acts =
        some (night_win_check (({ g with players := setDead g.players t1 }).add_event
          EventType.KILL g.current_phase.value g.day none (some t1)
          { role := some victim.role.value, team := some victim.team.value })) := by
      simp only [process_night_results, hct]
      rw [if_pos hcond, hvictim]
    refine ⟨_, heq, fun he => absurd he h12, fun _ => ⟨?_, ?_⟩⟩
    · rw [players_night_win_check, players_add_event]
      show dictGet (setDead g.players t1) t1 = _
      rw [dictGet_setDead_self, hvictim]
      rfl
    · refine ⟨{
          type := EventType.KILL, phase := g.current_phase.value, day := g.day,
          player_id := none, target_id := some t1,
          data := { role := some victim.role.value, team := some victim.team.value } },
        ?_, rfl, rfl, rfl, rfl⟩
      apply mem_log_night_win_check
      simp only [event_log_add_event]
      exact List.mem_append_right _ (by simp)

/-- Witness for C2 at a concrete night: the save misses the kill, so
Alice dies and a KILL event with her role and team is logged. -/
theorem night_kill_save_resolution_witness :
    ∃ g', process_night_results gNight
        [("m", { night_action_type := NightActionType.KILL, target_id := "a" }),
         ("x", { night_action_type := NightActionType.SAVE, target_id := "b" })] = some g' ∧
      ("b" = "a" → dictGet g'.players "a" = some (mkVillager "a" "Alice")) ∧
      ("b" ≠ "a" →
        dictGet g'.players "a" = some { mkVillager "a" "Alice" with is_alive := false } ∧
        ∃ e ∈ g'.event_log, e.type = EventType.KILL ∧ e.target_id = some "a" ∧
          e.data.role = some (mkVillager "a" "Alice").role.value ∧
          e.data.team = some (mkVillager "a" "Alice").team.value) :=
  night_kill_save_resolution gNight "m" "x" "a" "b" _ (mkVillager "a" "Alice")
    (Or.inl rfl) (by decide) (by decide)

/-- C3: when judgment voting completes on a fresh trial, a strict
guilty majority kills the defendant and appends an ELIMINATE event
with the defendant's role and team; otherwise the defendant stays
alive and the event log is untouched. -/
theorem judgment_verdict (g : GameState) (trial : TrialState) (d : Player)
    (vchoice : String → Bool)
    (htr : g.trial_state = some trial) (hvotes : trial.votes = [])
    (hd : dictGet g.players trial.defendant_id = some d) :
    ∃ g', run_judgment g vchoice = some g' ∧
      (guilty_count g trial vchoice > innocent_count g trial vchoice →
        dictGet g'.players trial.defendant_id = some { d with is_alive := false } ∧
        ∃ e ∈ g'.event_log, e.type = EventType.ELIMINATE ∧
          e.player_id = some trial.defendant_id ∧
          e.data.role = some d.role.value ∧ e.data.team = some d.team.value) ∧
      (guilty_count g trial vchoice ≤ innocent_count g trial vchoice →
        dictGet g'.players trial.defendant_id = some d ∧
        g'.event_log = g.event_log) := by
  by_cases hgi : guilty_count g trial vchoice > innocent_count g trial vchoice
  · have heq : run_judgment g vchoice =
        some (judgment_win_check
          (({ g with
              trial_state := some { trial with
                votes := trial.votes ++ judgment_new_votes g trial vchoice },
              players := setDead g.players trial.defendant_id }).add_event
            EventType.ELIMINATE g.current_phase.value g.day
            (some trial.defendant_id) none
            { role := some d.role.value, team := some d.team.value,
              votes := some (trial.votes ++ judgment_new_votes g trial vchoice) })) := by
      simp only [run_judgment, htr, hd]
      rw [if_pos hgi]
    refine ⟨_, heq, fun _ => ⟨?_, ?_⟩, fun hle => absurd hgi (by omega)⟩
    · rw [players_judgment_win_check, players_add_event]
      show dictGet (setDead g.players trial.defendant_id) trial.defendant_id = _
      rw [dictGet_setDead_self, hd]
      rfl
    · refine ⟨{
          type := EventType.ELIMINATE, phase := g.current_phase.value, day := g.day,
          player_id := some trial.defendant_id, target_id := none,
          data := {
            role := some d.role.value, team := some d.team.value,
            votes := some (trial.votes ++ judgment_new_votes g trial vchoice) } },
        ?_, rfl, rfl, rfl, rfl⟩
      apply mem_log_judgment_win_check
      simp only [event_log_add_event]
      exact List.mem_append_right _ (by simp)
  · have heq : run_judgment g vchoice =
        some (cli_transition_to_night { g with
          trial_state := some { trial with
            votes := trial.votes ++ judgment_new_votes g trial vchoice } }) := by
      simp only [run_judgment, htr, hd]
      rw [if_neg hgi]
    refine ⟨_, heq, fun hgt => absurd hgt hgi, fun _ => ⟨?_, ?_⟩⟩
    · rw [players_cli_transition_to_night]
      exact hd
    · rw [event_log_cli_transition_to_night]

/-- Witness for C3: three unanimous guilty votes execute Alice and log
the ELIMINATE event. -/
theorem judgment_verdict_witness :
    ∃ g', run_judgment gJudgment (fun _ => true) = some g' ∧
      (guilty_count gJudgment { defendant_id := "a" } (fun _ => true) >
          innocent_count gJudgment { defendant_id := "a" } (fun _ => true) →
        dictGet g'.players ({ defendant_id := "a" } : TrialState).defendant_id =
          some { mkVillager "a" "Alice" with is_alive := false } ∧
        ∃ e ∈ g'.event_log, e.type = EventType.ELIMINATE ∧
          e.player_id = some ({ defendant_id := "a" } : TrialState).defendant_id ∧
          e.data.role = some (mkVillager "a" "Alice").role.value ∧
          e.data.team = some (mkVillager "a" "Alice").team.value) ∧
      (guilty_count gJudgment { defendant_id := "a" } (fun _ => true) ≤
          innocent_count gJudgment { defendant_id := "a" } (fun _ => true) →
        dictGet g'.players ({ defendant_id := "a" } : TrialState).defendant_id =
          some (mkVillager "a" "Alice") ∧
        g'.event_log = gJudgment.event_log) :=
  judgment_verdict gJudgment { defendant_id := "a" } (mkVillager "a" "Alice")
    (fun _ => true) rfl rfl (by decide)

/-! ### Invariant machinery for C5 -/

theorem sameCore_refl (g : GameState) : sameCore g g := ⟨rfl, rfl, rfl⟩

theorem sameCore_trans {g1 g2 g3 : GameState} (h12 : sameCore g1 g2)
    (h23 : sameCore g2 g3) : sameCore g1 g3 :=
  ⟨h23.1.trans h12.1, h23.2.1.trans h12.2.1, h23.2.2.trans h12.2.2⟩

theorem WinInv_of_sameCore {g g' : GameState} (h : sameCore g g') (hInv : WinInv g) :
    WinInv g' := by
  obtain ⟨hp, hc, hw⟩ := h
  constructor
  · rw [check_win_players_eq hp, hc]
    exact hInv.1
  · intro hcomp
    rw [hw, check_win_players_eq hp]
    exact hInv.2 (by rw [← hc]; exact hcomp)

theorem foldl_sameCore {α : Type} (f : GameState → α → GameState)
    (hf : ∀ s x, sameCore s (f s x)) :
    ∀ (l : List α) (s : GameState), sameCore s (l.foldl f s) := by
  intro l
  induction l with
  | nil => intro s; exact sameCore_refl s
  | cons a t ih => intro s; exact sameCore_trans (hf s a) (ih (f s a))

theorem foldl_bind_none {α : Type} (f : GameState → α → Option GameState) :
    ∀ l : List α,
      l.foldl (fun s? x => s?.bind (fun s => f s x)) none = none := by
  intro l
  induction l with
  | nil => rfl
  | cons a t ih => simpa using ih

theorem foldl_bind_sameCore {α : Type} (f : GameState → α → Option GameState)
    (hf : ∀ s x s', f s x = some s' → sameCore s s') :
    ∀ (l : List α) (s s' : GameState),
      l.foldl (fun s? x => s?.bind (fun s => f s x)) (some s) = some s' →
        sameCore s s' := by
  intro l
  induction l with
  | nil =>
    intro s s' h
    simp only [List.foldl_nil] at h
    injection h with h
    subst h
    exact sameCore_refl s
  | cons a t ih =>
    intro s s' h
    simp only [List.foldl_cons, Option.some_bind] at h
    cases hfa : f s a with
    | none =>
      rw [hfa, foldl_bind_none] at h
      cases h
    | some s1 =>
      rw [hfa] at h
      exact sameCore_trans (hf s a s1 hfa) (ih s1 s' h)

theorem sameCore_discussion_turn (g : GameState) (pid : String) (sp : Option String) :
    sameCore g (discussion_turn g pid sp) := by
  unfold discussion_turn
  cases sp <;> exact ⟨rfl, rfl, rfl⟩

theorem sameCore_run_discussion (g : GameState) (rounds : Nat)
    (speech : Nat → String → Option String) :
    sameCore g (run_discussion g rounds speech) := by
  have hinner : ∀ (r : Nat) (s : GameState),
      sameCore s ((g.get_alive_player_ids).foldl
        (fun s2 pid => discussion_turn s2 pid (speech r pid)) s) :=
    fun r s => foldl_sameCore _ (fun s2 pid => sameCore_discussion_turn s2 pid (speech r pid)) _ s
  have houter : sameCore g ((List.range rounds).foldl
      (fun s r => (g.get_alive_player_ids).foldl
        (fun s2 pid => discussion_turn s2 pid (speech r pid)) s) g) :=
    foldl_sameCore _ (fun s r => hinner r s) _ g
  exact sameCore_trans houter ⟨rfl, rfl, rfl⟩

theorem sameCore_nomination_turn (g : GameState) (aliveIds : List String)
    (pid : String) (chosen : Option String) (fb : String) (s' : GameState)
    (h : nomination_turn g aliveIds pid chosen fb = some s') : sameCore g s' := by
  simp only [nomination_turn] at h
  split at h
  · injection h with h
    subst h
    exact sameCore_refl g
  · repeat' split at h
    all_goals
      first
        | (injection h with h; subst h; exact ⟨rfl, rfl, rfl⟩)
        | cases h

theorem sameCore_run_nominations (g : GameState) (chosen : String → Option String)
    (fallback : String → String) (pickD : String) (g' : GameState)
    (h : run_nominations g chosen fallback pickD = some g') : sameCore g g' := by
  simp only [run_nominations] at h
  split at h
  · cases h
  · rename_i s heq
    have hgs : sameCore g s :=
      foldl_bind_sameCore _
        (fun s0 pid s1 h1 => sameCore_nomination_turn s0 _ pid _ _ s1 h1) _ g s heq
    split at h
    · injection h with h
      subst h
      exact sameCore_trans hgs ⟨rfl, rfl, rfl⟩
    · split at h
      · injection h with h
        subst h
        exact sameCore_trans hgs ⟨rfl, rfl, rfl⟩
      · cases h

theorem sameCore_run_defense (g : GameState) (opening closing : Option String)
    (resp : String → Option String) (g' : GameState)
    (h : run_defense g opening closing resp = some g') : sameCore g g' := by
  have hstep : ∀ (s2 : GameState) (p : Player), sameCore s2
      (match resp p.player_id with
        | some m => s2.add_event EventType.SPEAK s2.current_phase.value s2.day
            (some p.player_id) none { message := some m, context := some "town_response" }
        | none => s2) := by
    intro s2 p
    cases resp p.player_id <;> exact ⟨rfl, rfl, rfl⟩
  simp only [run_defense] at h
  split at h
  · injection h with h
    subst h
    exact sameCore_refl g
  · rename_i trial htrial
    split at h
    · cases h
    · injection h with h
      subst h
      have hopen : sameCore g (match opening with
          | some m => g.add_event EventType.SPEAK g.current_phase.value g.day
              (some trial.defendant_id) none
              { message := some m, context := some "opening_defense" }
          | none => g) := by
        cases opening <;> exact ⟨rfl, rfl, rfl⟩
      have hclose : ∀ s3 : GameState, sameCore s3 (match closing with
          | some m => s3.add_event EventType.SPEAK s3.current_phase.value s3.day
              (some trial.defendant_id) none
              { message := some m, context := some "closing_defense" }
          | none => s3) := by
        intro s3
        cases closing <;> exact ⟨rfl, rfl, rfl⟩
      exact sameCore_trans
        (sameCore_trans hopen (foldl_sameCore _ hstep _ _)) (hclose _)

@[simp] theorem is_complete_add_event (g : GameState) (ty : EventType) (ph : String)
    (d : Nat) (pi ti : Option String) (da : EventData) :
    (g.add_event ty ph d pi ti da).is_complete = g.is_complete := rfl

@[simp] theorem winner_add_event (g : GameState) (ty : EventType) (ph : String)
    (d : Nat) (pi ti : Option String) (da : EventData) :
    (g.add_event ty ph d pi ti da).winner = g.winner := rfl

@[simp] theorem is_complete_transition_to_day (g : GameState) :
    (transition_to_day g).is_complete = g.is_complete := rfl

@[simp] theorem winner_transition_to_day (g : GameState) :
    (transition_to_day g).winner = g.winner := rfl

@[simp] theorem is_complete_transition_to_night (g : GameState) :
    (transition_to_night g).is_complete = g.is_complete := rfl

@[simp] theorem winner_transition_to_night (g : GameState) :
    (transition_to_night g).winner = g.winner := rfl

@[simp] theorem is_complete_cli_transition_to_night (g : GameState) :
    (cli_transition_to_night g).is_complete = g.is_complete := rfl

@[simp] theorem winner_cli_transition_to_night (g : GameState) :
    (cli_transition_to_night g).winner = g.winner := rfl

@[simp] theorem check_win_transition_to_day (g : GameState) :
    (transition_to_day g).check_win_conditions = g.check_win_conditions := rfl

@[simp] theorem check_win_transition_to_night (g : GameState) :
    (transition_to_night g).check_win_conditions = g.check_win_conditions := rfl

@[simp] theorem check_win_cli_transition_to_night (g : GameState) :
    (cli_transition_to_night g).check_win_conditions = g.check_win_conditions := rfl

theorem WinInv_night_win_check (g1 : GameState) (hc : g1.is_complete = false) :
    WinInv (night_win_check g1) := by
  unfold night_win_check
  cases hw : g1.check_win_conditions with
  | some w =>
    constructor
    · show g1.check_win_conditions.isSome = true
      rw [hw]
      rfl
    · intro _
      show (some w : Option Team) = g1.check_win_conditions
      rw [hw]
  | none =>
    constructor
    · show g1.check_win_conditions.isSome = g1.is_complete
      rw [hw, hc]
      rfl
    · intro hcomp
      have hcomp2 : g1.is_complete = true := hcomp
      rw [hc] at hcomp2
      cases hcomp2

theorem WinInv_judgment_win_check (g3 : GameState) (hc : g3.is_complete = false) :
    WinInv (judgment_win_check g3) := by
  unfold judgment_win_check
  cases hw : g3.check_win_conditions with
  | some w =>
    constructor
    · show g3.check_win_conditions.isSome = true
      rw [hw]
      rfl
    · intro _
      show (some w : Option Team) = g3.check_win_conditions
      rw [hw]
  | none =>
    constructor
    · show g3.check_win_conditions.isSome = g3.is_complete
      rw [hw, hc]
      rfl
    · intro hcomp
      have hcomp2 : g3.is_complete = true := hcomp
      rw [hc] at hcomp2
      cases hcomp2

theorem WinInv_dawn_win_check (g2 : GameState) (hInv : WinInv g2) :
    WinInv (dawn_win_check g2) := by
  unfold dawn_win_check
  cases hw : g2.check_win_conditions with
  | some w =>
    constructor
    · show g2.check_win_conditions.isSome = true
      rw [hw]
      rfl
    · intro _
      show (some w : Option Team) = g2.check_win_conditions
      rw [hw]
  | none => exact hInv

theorem WinInv_voting_win_check (elim : String) (g2 : GameState)
    (hc : g2.is_complete = false) : WinInv (voting_win_check elim g2).2.2 := by
  unfold voting_win_check
  cases hw : g2.check_win_conditions with
  | some w =>
    constructor
    · show g2.check_win_conditions.isSome = true
      rw [hw]
      rfl
    · intro _
      show (some w : Option Team) = g2.check_win_conditions
      rw [hw]
  | none =>
    constructor
    · show g2.check_win_conditions.isSome = g2.is_complete
      rw [hw, hc]
      rfl
    · intro hcomp
      have hcomp2 : g2.is_complete = true := hcomp
      rw [hc] at hcomp2
      cases hcomp2

theorem sameCore_begin_voting (g g' : GameState) (h : begin_voting g = some g') :
    sameCore g g' := by
  unfold begin_voting at h
  split at h
  · injection h with h
    subst h
    exact ⟨rfl, rfl, rfl⟩
  · cases h

theorem sameCore_process_discussion_action (g : GameState) (a : Action)
    (r : Bool × Option String × GameState)
    (h : process_discussion_action g a = some r) : sameCore g r.2.2 := by
  cases a with
  | speak pid msg =>
    simp only [process_discussion_action] at h
    injection h with h
    subst h
    exact ⟨rfl, rfl, rfl⟩
  | nominate pid tid =>
    simp only [process_discussion_action] at h
    split at h
    · split at h
      · rename_i g3 hbv
        injection h with h
        subst h
        refine sameCore_trans ?_ (sameCore_begin_voting _ _ hbv)
        exact ⟨rfl, rfl, rfl⟩
      · cases h
    · injection h with h
      subst h
      exact ⟨rfl, rfl, rfl⟩
  | pass pid =>
    simp only [process_discussion_action] at h
    injection h with h
    subst h
    exact ⟨rfl, rfl, rfl⟩
  | vote pid nid =>
    simp only [process_discussion_action] at h
    injection h with h
    subst h
    exact ⟨rfl, rfl, rfl⟩
  | judgmentVote pid v rr =>
    simp only [process_discussion_action] at h
    injection h with h
    subst h
    exact ⟨rfl, rfl, rfl⟩
  | night pid ty tid =>
    simp only [process_discussion_action] at h
    injection h with h
    subst h
    exact ⟨rfl, rfl, rfl⟩

theorem sameCore_process_night_action (g : GameState) (a : Action)
    (r : Bool × Option String × GameState)
    (h : process_night_action g a = some r) : sameCore g r.2.2 := by
  cases a with
  | night pid ty tid =>
    cases ty with
    | KILL =>
      simp only [process_night_action] at h
      injection h with h
      subst h
      exact ⟨rfl, rfl, rfl⟩
    | SAVE =>
      simp only [process_night_action] at h
      injection h with h
      subst h
      exact ⟨rfl, rfl, rfl⟩
    | INVESTIGATE =>
      simp only [process_night_action] at h
      split at h
      · cases h
      · injection h with h
        subst h
        exact ⟨rfl, rfl, rfl⟩
  | speak pid msg =>
    injection h with h
    subst h
    exact ⟨rfl, rfl, rfl⟩
  | nominate pid tid =>
    injection h with h
    subst h
    exact ⟨rfl, rfl, rfl⟩
  | vote pid nid =>
    injection h with h
    subst h
    exact ⟨rfl, rfl, rfl⟩
  | judgmentVote pid v rr =>
    injection h with h
    subst h
    exact ⟨rfl, rfl, rfl⟩
  | pass pid =>
    injection h with h
    subst h
    exact ⟨rfl, rfl, rfl⟩

theorem sameCore_process_vote (g : GameState) (pid nid : String) (g1 : GameState)
    (h : process_vote g pid nid = Except.ok g1) : sameCore g g1 := by
  unfold process_vote at h
  split at h
  · cases h
  · split at h
    · cases h
    · split at h
      · cases h
      · injection h with h
        subst h
        exact ⟨rfl, rfl, rfl⟩

theorem complete_voting_cases (g1 : GameState) (res : Option String) (g2 : GameState)
    (h : complete_voting g1 = Except.ok (res, g2)) :
    g2.is_complete = g1.is_complete ∧ g2.winner = g1.winner ∧
      (res = none → g2.players = g1.players) := by
  simp only [complete_voting] at h
  repeat' split at h
  all_goals
    first
      | (injection h with h
         injection h with hres hst
         subst hst
         refine ⟨rfl, rfl, fun hn => ?_⟩
         first
           | rfl
           | (rw [hn] at hres; cases hres))
      | cases h

theorem WinInv_process_voting_action (g : GameState) (a : Action)
    (r : Bool × Option String × GameState) (hc : g.is_complete = false)
    (hInv : WinInv g) (h : process_voting_action g a = some r) : WinInv r.2.2 := by
  cases a with
  | vote pid nid =>
    simp only [process_voting_action] at h
    cases hpv : process_vote g pid nid with
    | error e =>
      simp only [hpv] at h
      cases e with
      | valueError m =>
        injection h with h
        subst h
        exact hInv
      | keyError => cases h
    | ok g1 =>
      simp only [hpv] at h
      have hg1 : sameCore g g1 := sameCore_process_vote g pid nid g1 hpv
      cases hcv : complete_voting g1 with
      | error e =>
        simp only [hcv] at h
        cases e with
        | valueError m =>
          injection h with h
          subst h
          exact WinInv_of_sameCore hg1 hInv
        | keyError => cases h
      | ok p =>
        obtain ⟨res, g2⟩ := p
        simp only [hcv] at h
        obtain ⟨hcc, hcw, hcp⟩ := complete_voting_cases g1 res g2 hcv
        cases res with
        | none =>
          injection h with h
          subst h
          exact WinInv_of_sameCore (sameCore_trans hg1 ⟨hcp rfl, hcc, hcw⟩) hInv
        | some elim =>
          injection h with h
          subst h
          have hc2 : g2.is_complete = false := by
            rw [hcc, hg1.2.1, hc]
          exact WinInv_voting_win_check elim g2 hc2
  | speak pid msg =>
    injection h with h
    subst h
    exact hInv
  | nominate pid tid =>
    injection h with h
    subst h
    exact hInv
  | judgmentVote pid v rr =>
    injection h with h
    subst h
    exact hInv
  | pass pid =>
    injection h with h
    subst h
    exact hInv
  | night pid ty tid =>
    injection h with h
    subst h
    exact hInv

theorem WinInv_process_action (g : GameState) (a : Action)
    (r : Bool × Option String × GameState) (hc : g.is_complete = false)
    (hInv : WinInv g) (h : process_action g a = some r) : WinInv r.2.2 := by
  simp only [process_action] at h
  split at h
  · injection h with h
    subst h
    exact hInv
  · split at h
    · exact WinInv_of_sameCore (sameCore_process_discussion_action g a r h) hInv
    · split at h
      · exact WinInv_process_voting_action g a r hc hInv h
      · split at h
        · exact WinInv_of_sameCore (sameCore_process_night_action g a r h) hInv
        · injection h with h
          subst h
          exact hInv

theorem WinInv_process_night_results (g : GameState) (acts : List (String × NAct))
    (g1 : GameState) (hc : g.is_complete = false)
    (h : process_night_results g acts = some g1) : WinInv g1 := by
  simp only [process_night_results] at h
  split at h
  · split at h
    · split at h
      · cases h
      · injection h with h
        subst h
        exact WinInv_night_win_check _ hc
    · injection h with h
      subst h
      exact WinInv_night_win_check g hc
  · injection h with h
    subst h
    exact WinInv_night_win_check g hc

theorem WinInv_run_night (g : GameState) (rawAct : String → Option NAct)
    (rawTarget : String → Option String) (fallback : String → String)
    (g' : GameState) (hc : g.is_complete = false) (hInv : WinInv g)
    (h : run_night g rawAct rawTarget fallback = some g') : WinInv g' := by
  simp only [run_night] at h
  split at h
  · cases h
  · rename_i acts hacts
    split at h
    · injection h with h
      subst h
      exact hInv
    · split at h
      · cases h
      · rename_i g1 hpnr
        injection h with h
        subst h
        apply WinInv_dawn_win_check
        exact WinInv_of_sameCore ⟨rfl, rfl, rfl⟩
          (WinInv_process_night_results g acts g1 hc hpnr)

theorem WinInv_run_judgment (g : GameState) (vchoice : String → Bool) (g' : GameState)
    (hc : g.is_complete = false) (hInv : WinInv g)
    (h : run_judgment g vchoice = some g') : WinInv g' := by
  simp only [run_judgment] at h
  split at h
  · injection h with h
    subst h
    exact hInv
  · split at h
    · cases h
    · split at h
      · injection h with h
        subst h
        exact WinInv_judgment_win_check _ hc
      · injection h with h
        subst h
        exact WinInv_of_sameCore ⟨rfl, rfl, rfl⟩ hInv

theorem WinInv_step {g g' : GameState} (h : Step g g') (hInv : WinInv g) :
    WinInv g' := by
  cases h with
  | act a r hc hpr => exact WinInv_process_action g a r hc hInv hpr
  | night rawAct rawTarget fallback g2 hc hp hrun =>
    exact WinInv_run_night g rawAct rawTarget fallback g' hc hInv hrun
  | discussion rounds speech hc hp =>
    exact WinInv_of_sameCore (sameCore_run_discussion g rounds speech) hInv
  | nominations chosen fallback pickD g2 hc hp hrun =>
    exact WinInv_of_sameCore (sameCore_run_nominations g chosen fallback pickD g' hrun) hInv
  | defense opening closing resp g2 hc hp hrun =>
    exact WinInv_of_sameCore (sameCore_run_defense g opening closing resp g' hrun) hInv
  | judgment vchoice g2 hc hp hrun =>
    exact WinInv_run_judgment g vchoice g' hc hInv hrun

theorem WinInv_reach {g0 g : GameState} (h0 : WinInv g0) (h : Reach g0 g) :
    WinInv g := by
  induction h with
  | refl => exact h0
  | tail _ hstep ih => exact WinInv_step hstep ih

theorem WinInv_of_GoodInit {g : GameState} (h : GoodInit g) : WinInv g := by
  obtain ⟨_, _, hc, h1, h2⟩ := h
  constructor
  · rw [hc]
    simp only [GameState.check_win_conditions]
    rw [if_neg (by omega), if_neg (by omega)]
    rfl
  · intro hcomp
    rw [hc] at hcomp
    cases hcomp

theorem check_win_isSome_iff (g : GameState) :
    g.check_win_conditions.isSome = true ↔
      (aliveMafiaCount g = 0 ∨ aliveTownTeamCount g ≤ aliveMafiaCount g) := by
  have hm := mafia_count_eq g
  have ht := town_count_eq g
  simp only [GameState.check_win_conditions, hm, ht]
  split_ifs with h1 h2
  · simp [h1]
  · simp [h2]
  · simp [h1, h2]

/-- C5: in every game state reachable from a well-formed started game
through engine-mediated transitions (the game loop refuses completed
games, matching the spec's "once GAME_END, no further actions are
accepted"), the win condition — zero alive Mafia, or alive Mafia at
least the alive town count — holds exactly when the game is complete
with `winner` set to the team `check_win_conditions` names. -/
theorem reachable_win_iff_complete (g0 g : GameState) (h0 : GoodInit g0)
    (h : Reach g0 g) :
    (aliveMafiaCount g = 0 ∨ aliveTownTeamCount g ≤ aliveMafiaCount g) ↔
      (g.is_complete = true ∧ g.winner = g.check_win_conditions ∧
        g.winner ≠ none) := by
  have hInv : WinInv g := WinInv_reach (WinInv_of_GoodInit h0) h
  constructor
  · intro hcond
    have h1 : g.check_win_conditions.isSome = true := (check_win_isSome_iff g).mpr hcond
    have hcomp : g.is_complete = true := by
      rw [← hInv.1]
      exact h1
    refine ⟨hcomp, hInv.2 hcomp, ?_⟩
    rw [hInv.2 hcomp]
    exact Option.isSome_iff_ne_none.mp h1
  · rintro ⟨hcomp, _, _⟩
    apply (check_win_isSome_iff g).mp
    rw [hInv.1]
    exact hcomp

/-- Witness for C5 at the starting game itself (reachable by the empty
transition sequence): no side of the equivalence holds. -/
theorem reachable_win_iff_complete_witness :
    GoodInit gNight ∧
      ((aliveMafiaCount gNight = 0 ∨
          aliveTownTeamCount gNight ≤ aliveMafiaCount gNight) ↔
        (gNight.is_complete = true ∧ gNight.winner = gNight.check_win_conditions ∧
          gNight.winner ≠ none)) :=
  ⟨by decide,
   reachable_win_iff_complete gNight gNight (by decide) Relation.ReflTransGen.refl⟩

/-- C4: resolving the night with a successful kill and no winner runs
`transition_to_day`, which *increments* the day counter — Night 1 is
followed by Day 2, although the CLI's own comments state that the day
number must carry over unchanged (`Night N → Day N`). -/
theorem night_resolution_increments_day :
    gNight.day = 1 ∧
    (process_night_results gNight killOnlyActs).map GameState.day = some 2 ∧
    (process_night_results gNight killOnlyActs).map GameState.current_phase =
      some Phase.DAY_DISCUSSION := by decide

end Mafia
